import Mathlib

/-!
Verification development for the Smart Inventory dashboard
(`inventory-dashboard/src/InventoryHealthPageEnhanced.jsx`).

The component holds the latest snapshot of prediction records, derives a
filtered/sorted view, status aggregates, a per-store critical histogram,
a top-critical list, and a CSV export.  This file shallowly embeds those
computations and proves properties about them.

Embedding conventions:
* JavaScript numbers carrying `days_to_stockout` are either finite values
  or the positive-infinity sentinel; we model them by `JNum` with finite
  part `ℚ` (exact arithmetic; the sign of a float subtraction of finite
  values agrees with the exact comparison, and `x.toFixed(d)` follows the
  real-number rounding rule of the ECMAScript specification).
* `Array.prototype.sort` is required by ECMAScript 2019+ to be stable; we
  model it as a stable merge sort (a fuel-indexed structural clone of
  `List.mergeSort`, so that the kernel can evaluate it).  A comparator
  returning a negative / zero / positive number (NaN counts as zero) is
  modelled by an `Ordering`; the sort keeps an element of the left run
  first whenever the comparator result is not `gt`.
* `localeCompare` is modelled as the lexicographic linear order on
  `String` (the specification only requires a consistent total order).
* Optional / absent JSON fields are modelled by `Option`.
-/

/-- JavaScript number used for `days_to_stockout`: a finite value or the
positive-infinity sentinel `Infinity`. -/
inductive JNum where
  | num (q : ℚ)
  | inf
deriving DecidableEq

/-- One prediction record, as consumed by the dashboard (data model of the
spec, §3): `sku_id`/`store_id`/`status` strings, non-negative stock and
average-daily-sales numbers, `days_to_stockout` possibly infinite,
optional reorder quantity, optional `category`/`city`, and the optional
per-record `last_updated` used as a fallback timestamp by `fetchData`. -/
structure PredictionRecord where
  sku_id : String
  store_id : String
  current_stock : ℕ
  avg_daily_sales : ℚ
  days_to_stockout : JNum
  status : String
  recommended_reorder_quantity : Option ℕ
  category : Option String
  city : Option String
  last_updated : Option String
deriving DecidableEq

/-- Three-way comparison induced by a linear order: the sign of the
JavaScript subtraction `a - b` (for numbers), or of `localeCompare`. -/
def cmpOf {β : Type _} [LinearOrder β] (x y : β) : Ordering :=
  if x < y then .lt else if x = y then .eq else .gt

/-- Sign of the JavaScript subtraction `a - b` on `days_to_stockout`
values (comparator branch `aVal - bVal` of the sort in the filter
effect): `Infinity - Infinity` is NaN, which the sort treats as `0`. -/
def jnumCmp : JNum → JNum → Ordering
  | .num p, .num q => cmpOf p q
  | .num _, .inf => .lt
  | .inf, .num _ => .gt
  | .inf, .inf => .eq

/-- Interpretation of `JNum` in the linearly ordered `WithTop ℚ`;
`jnumCmp` is exactly the comparison there. -/
def jnumVal : JNum → WithTop ℚ
  | .num q => (q : WithTop ℚ)
  | .inf => ⊤

/-- Sign of the JavaScript subtraction on `recommended_reorder_quantity`
values: if either side is `undefined` the subtraction is NaN, which the
sort treats as `0` (equal). -/
def optNatCmp : Option ℕ → Option ℕ → Ordering
  | some p, some q => cmpOf p q
  | some _, none => .eq
  | none, some _ => .eq
  | none, none => .eq

/-- Fuel-indexed clone of `List.merge` (structural recursion on the
fuel, so the kernel can evaluate it on concrete lists). -/
def mergeF (le : α → α → Bool) : ℕ → List α → List α → List α
  | _, [], ys => ys
  | _, x :: xs, [] => x :: xs
  | 0, xs, ys => xs ++ ys
  | fuel+1, x :: xs, y :: ys =>
    if le x y then x :: mergeF le fuel xs (y :: ys)
    else y :: mergeF le fuel (x :: xs) ys

/-- Merge of two runs, keeping a left element first whenever the
comparator allows (`List.merge` with explicit fuel). -/
def jsMerge (le : α → α → Bool) (xs ys : List α) : List α :=
  mergeF le (xs.length + ys.length) xs ys

/-- Fuel-indexed clone of `List.mergeSort` (structural recursion, so the
kernel can evaluate it on concrete lists). -/
def mergeSortF (le : α → α → Bool) : ℕ → List α → List α
  | _, [] => []
  | _, [a] => [a]
  | 0, l => l
  | fuel+1, a :: b :: xs =>
    let l := a :: b :: xs
    jsMerge le (mergeSortF le fuel (l.take ((l.length + 1) / 2)))
      (mergeSortF le fuel (l.drop ((l.length + 1) / 2)))

/-- Model of `Array.prototype.sort` with a comparator: a stable merge
sort (ECMAScript requires the sort to be stable). -/
def jsSort (le : α → α → Bool) (l : List α) : List α :=
  mergeSortF le l.length l

/-- Sortable columns of the table (`SORT_COLUMNS` in the component). -/
inductive SortField where
  | sku_id
  | store_id
  | days_to_stockout
  | recommended_reorder_quantity
deriving DecidableEq

/-- Sort direction (`sortOrder` state, `"asc"` / `"desc"`). -/
inductive SortDir where
  | asc
  | desc
deriving DecidableEq

/-- Comparator result before the direction is applied: the component's
comparator reads `aVal = a[sortField]`, `bVal = b[sortField]` and uses
`localeCompare` on strings and subtraction on numbers.  String fields are
modelled by the lexicographic order (`localeCompare` is only required to
be a consistent total order); numeric subtraction signs, including the
NaN cases, are `jnumCmp` / `optNatCmp`. -/
def baseCmp (f : SortField) (a b : PredictionRecord) : Ordering :=
  match f with
  | .sku_id => cmpOf a.sku_id b.sku_id
  | .store_id => cmpOf a.store_id b.store_id
  | .days_to_stockout => jnumCmp a.days_to_stockout b.days_to_stockout
  | .recommended_reorder_quantity =>
      optNatCmp a.recommended_reorder_quantity b.recommended_reorder_quantity

/-- Apply the sort direction: `"asc"` keeps the comparator, `"desc"`
swaps its arguments (`bVal.localeCompare(aVal)` resp. `bVal - aVal`). -/
def dirOrd (o : SortDir) (c : Ordering) : Ordering :=
  match o with
  | .asc => c
  | .desc => c.swap

/-- Full comparator of the filter effect's `data.sort(...)`. -/
def keyCmp (f : SortField) (o : SortDir) (a b : PredictionRecord) : Ordering :=
  dirOrd o (baseCmp f a b)

/-- Boolean "less or equivalent" used by the stable sort: a left element
stays first whenever the comparator does not say it is greater. -/
def sortLe (f : SortField) (o : SortDir) (a b : PredictionRecord) : Bool :=
  (keyCmp f o a b).isLE

/-- The `data.sort((a, b) => ...)` step of the filter effect. -/
def jsSortBy (f : SortField) (o : SortDir) (l : List PredictionRecord) :
    List PredictionRecord :=
  jsSort (sortLe f o) l

/-- Filter criteria owned by the component (`storeFilter`,
`categoryFilter`, `showCriticalOnly`, `search`). -/
structure Filters where
  storeFilter : String
  categoryFilter : String
  showCriticalOnly : Bool
  search : String
deriving DecidableEq

/-- JavaScript strict equality `r.category === categoryFilter` where the
left side may be `undefined` (absent category): `undefined === s` is
false for every string `s`. -/
def jsStrictEqOpt (o : Option String) (c : String) : Bool :=
  match o with
  | some s => s == c
  | none => false

/-- Character-list version of `String.startsWith`, written out so the
kernel evaluates it. -/
def charsStartWith : List Char → List Char → Bool
  | _, [] => true
  | [], _ :: _ => false
  | c :: cs, d :: ds => c == d && charsStartWith cs ds

/-- Substring test on character lists (JavaScript `String.includes`):
the needle occurs contiguously anywhere; the empty needle matches. -/
def charsHaveSub (needle : List Char) : List Char → Bool
  | [] => needle.isEmpty
  | c :: t => charsStartWith (c :: t) needle || charsHaveSub needle t

/-- JavaScript `hay.includes(needle)`. -/
def strIncludes (hay needle : String) : Bool :=
  charsHaveSub needle.data hay.data

/-- The spread copy `[...records]` (element-wise copy of the array). -/
def jsSpread (l : List α) : List α :=
  l.foldr (· :: ·) []

/-- Filtering portion of the filter effect (the four conditional
`data = data.filter(...)` statements, in source order: store, category,
critical-only, debounced search). -/
def applyFilters (fc : Filters) (records : List PredictionRecord) :
    List PredictionRecord :=
  let data := jsSpread records
  let data := if fc.storeFilter ≠ "ALL" then
      data.filter (fun r => r.store_id == fc.storeFilter) else data
  let data := if fc.categoryFilter ≠ "ALL" then
      data.filter (fun r => jsStrictEqOpt r.category fc.categoryFilter) else data
  let data := if fc.showCriticalOnly then
      data.filter (fun r => r.status == "Critical") else data
  let data := if fc.search.trim ≠ "" then
      data.filter (fun r => strIncludes r.sku_id.toLower fc.search.trim.toLower)
    else data
  data

/-- The whole filter effect body: filter, then sort; the result is what
`setFiltered` stores. -/
def computeFiltered (fc : Filters) (f : SortField) (o : SortDir)
    (records : List PredictionRecord) : List PredictionRecord :=
  jsSortBy f o (applyFilters fc records)

/-- `countCritical` computed value (a filter over the full `records`). -/
def countCritical (records : List PredictionRecord) : ℕ :=
  (records.filter (fun r => r.status == "Critical")).length

/-- `countWarning` computed value. -/
def countWarning (records : List PredictionRecord) : ℕ :=
  (records.filter (fun r => r.status == "Warning")).length

/-- `countSafe` computed value. -/
def countSafe (records : List PredictionRecord) : ℕ :=
  (records.filter (fun r => r.status == "Safe")).length

/-- One step of the `criticalByStore` reduce: `acc[r.store_id] =
(acc[r.store_id] || 0) + 1`.  A JavaScript object with string keys keeps
first-insertion order: an existing key is bumped in place, a new key is
appended.  (Integer-like keys would be reordered first by JavaScript;
the claims below only concern the mapping's contents.) -/
def bumpStore (acc : List (String × ℕ)) (k : String) : List (String × ℕ) :=
  match acc with
  | [] => [(k, 1)]
  | e :: rest => if e.1 = k then (e.1, e.2 + 1) :: rest else e :: bumpStore rest k

/-- `criticalByStore` computed value: `records.reduce(...)` counting
Critical records per `store_id`, over the full `records`. -/
def criticalByStore (records : List PredictionRecord) : List (String × ℕ) :=
  records.foldl
    (fun acc r => if r.status == "Critical" then bumpStore acc r.store_id else acc)
    []

/-- The `BarChart` consumer slices the entries: `Object.entries(data)
.slice(0, 6)`. -/
def barChartEntries (data : List (String × ℕ)) : List (String × ℕ) :=
  data.take 6

/-- Comparator of `topCritical`'s sort: `b.days_to_stockout -
a.days_to_stockout` (descending by days; NaN from `∞ - ∞` counts as 0). -/
def topCmp (a b : PredictionRecord) : Ordering :=
  (jnumCmp a.days_to_stockout b.days_to_stockout).swap

/-- `topCritical` computed value: Critical records sorted descending by
`days_to_stockout`, truncated to the first 5, over the full `records`. -/
def topCritical (records : List PredictionRecord) : List PredictionRecord :=
  (jsSort (fun a b => (topCmp a b).isLE)
    (records.filter (fun r => r.status == "Critical"))).take 5

/-- All values the component derives from a snapshot and the current
filter / sort criteria in one render. -/
structure DashboardDerived where
  filtered : List PredictionRecord
  countCritical : ℕ
  countWarning : ℕ
  countSafe : ℕ
  criticalByStore : List (String × ℕ)
  topCritical : List PredictionRecord

/-- One render's derived data: the filtered view comes from the filter /
sort criteria, the aggregates are computed from the full `records`
snapshot (as in the component, which reads `records`, not `filtered`,
for all of them). -/
def deriveDashboard (records : List PredictionRecord) (fc : Filters)
    (f : SortField) (o : SortDir) : DashboardDerived :=
  { filtered := computeFiltered fc f o records
    countCritical := countCritical records
    countWarning := countWarning records
    countSafe := countSafe records
    criticalByStore := criticalByStore records
    topCritical := topCritical records }

/-- Pad with `k` leading zeros. -/
def padZeros (k : ℕ) : String :=
  String.mk (List.replicate k '0')

/-- Decimal rendering of `m / 10^d` with exactly `d` fractional digits. -/
def fixedDigits (d m : ℕ) : String :=
  if d = 0 then toString m
  else
    let frac := toString (m % 10 ^ d)
    toString (m / 10 ^ d) ++ "." ++ padZeros (d - frac.length) ++ frac

/-- Rounded scaled value behind `x.toFixed(d)`: the integer nearest to
`q * 10^d`, ties to the larger integer, i.e. `⌊q * 10^d + 1/2⌋ =
(2 * q.num * 10^d + q.den) fdiv (2 * q.den)` (written with integer
arithmetic on the reduced fraction so the kernel can evaluate it;
`Int.fdiv` is floor division and the denominator is positive). -/
def jsToFixedZ (d : ℕ) (q : ℚ) : ℤ :=
  (2 * q.num * (10 : ℤ) ^ d + (q.den : ℤ)).fdiv (2 * (q.den : ℤ))

/-- JavaScript `x.toFixed(d)`: round to the nearest `d`-decimal value,
ties away from zero for the non-negative values the dashboard renders,
then print with exactly `d` fractional digits.  Negative-zero is not
modelled; all values rendered by the dashboard are non-negative. -/
def jsToFixed (d : ℕ) (q : ℚ) : String :=
  let n : ℤ := jsToFixedZ d q
  if n < 0 then "-" ++ fixedDigits d n.natAbs else fixedDigits d n.toNat

/-- Result of `downloadCSV`: either the "No data to export" alert (the
empty-view guard) or the produced CSV document text. -/
inductive ExportResult where
  | notice (msg : String)
  | file (content : String)
deriving DecidableEq

/-- Header row cells of `downloadCSV`. -/
def csvHeaders : List String :=
  ["SKU", "Store", "Current Stock", "Avg Daily Sales", "Days to Stockout",
   "Status", "Reorder Qty", "Category", "City"]

/-- One data row of `downloadCSV` before quoting (the `rows` map).  The
JavaScript falsy checks are kept: `x || "0"` yields `"0"` for an absent
or zero reorder quantity, `x || "-"` yields `"-"` for an absent or empty
category / city; `toFixed` never returns a falsy string, so its `|| "0"`
fallbacks only matter for absent fields, which the data model marks
required. -/
def csvCells (r : PredictionRecord) : List String :=
  [r.sku_id,
   r.store_id,
   toString r.current_stock,
   jsToFixed 2 r.avg_daily_sales,
   (match r.days_to_stockout with
    | .inf => "∞"
    | .num q => jsToFixed 1 q),
   r.status,
   (match r.recommended_reorder_quantity with
    | some n => if n = 0 then "0" else toString n
    | none => "0"),
   (match r.category with
    | some s => if s = "" then "-" else s
    | none => "-"),
   (match r.city with
    | some s => if s = "" then "-" else s
    | none => "-")]

/-- The CSV text: every cell wrapped in double quotes, cells joined with
commas, rows joined with newlines, header row first. -/
def csvString (data : List PredictionRecord) : String :=
  String.intercalate "\n"
    ((csvHeaders :: data.map csvCells).map
      (fun row => String.intercalate "," (row.map (fun cell => "\"" ++ cell ++ "\""))))

/-- `downloadCSV` (the filename and the DOM download mechanics are
presentation concerns and not modelled): an empty view alerts "No data
to export" and produces no document; otherwise the CSV text is built. -/
def downloadCSV (data : List PredictionRecord) : ExportResult :=
  if data.length = 0 then .notice "No data to export"
  else .file (csvString data)

/-- Claim-side definition (spec §4.7 wording): wrap a field value in
double quotes. -/
def quoteCell (c : String) : String :=
  "\"" ++ c ++ "\""

/-- Claim-side definition (spec §4.7 wording): the fixed 9-column header
row. -/
def specHeaderRow : String :=
  String.intercalate ","
    (["SKU", "Store", "Current Stock", "Avg Daily Sales", "Days to Stockout",
      "Status", "Reorder Qty", "Category", "City"].map quoteCell)

/-- Consumer-side fetch state: the generation counter models fresh
`AbortController` instances (`abortControllerRef`), `current` is the
generation of the controller whose signal is not aborted; `records`,
`lastUpdated`, `error`, `loading` are the component states the fetch
writes. -/
structure FetchState where
  nextGen : ℕ
  current : Option ℕ
  records : List PredictionRecord
  lastUpdated : Option String
  error : Option String
  loading : Bool
deriving DecidableEq

/-- How one in-flight request finishes: a parsed success payload, or a
transport / HTTP failure (any error whose name is not `AbortError`). -/
inductive FetchOutcome where
  | success (recs : List PredictionRecord) (last_updated : Option String)
  | failure (msg : String)
deriving DecidableEq

/-- Events of the fetch model: `startRequest` is a call to `fetchData`
(abort the previous controller, make a new one, set loading, clear
error); `settle gen out` is the continuation of the request issued with
generation `gen` running — if that generation was aborted the awaited
promises reject with `AbortError`, which the catch block ignores;
`unmount` is the effect cleanup aborting the outstanding controller. -/
inductive FetchEvent where
  | startRequest
  | settle (gen : ℕ) (out : FetchOutcome)
  | unmount
deriving DecidableEq

/-- JavaScript `a || b` on the `last_updated` string (empty string is
falsy). -/
def jsStrFalsyOr (a b : Option String) : Option String :=
  match a with
  | some s => if s = "" then b else some s
  | none => b

/-- Transition function of the fetch model, translated from `fetchData`
and the unmount cleanup.  A `settle` whose generation is no longer
current models the aborted request's rejection: `err.name ===
"AbortError"`, so no state changes (neither records nor error). -/
def fetchStep (s : FetchState) : FetchEvent → FetchState
  | .startRequest =>
      { s with nextGen := s.nextGen + 1, current := some s.nextGen,
               loading := true, error := none }
  | .settle gen out =>
      if s.current = some gen then
        match out with
        | .success recs lu =>
            { s with records := recs,
                     lastUpdated := jsStrFalsyOr lu
                       (match recs with
                        | [] => none
                        | r :: _ => r.last_updated),
                     loading := false }
        | .failure msg => { s with error := some msg, loading := false }
      else s
  | .unmount => { s with current := none }

/-- Component state relevant to the filter effect: the snapshot, the
derived filtered view, and the filter / sort criteria. -/
structure ViewState where
  records : List PredictionRecord
  filtered : List PredictionRecord
  fc : Filters
  sortField : SortField
  sortOrder : SortDir

/-- The filter effect as a state transition: recompute `filtered` from
the snapshot and the criteria (`setFiltered(data)`); everything else is
untouched. -/
def applyFilterEffect (st : ViewState) : ViewState :=
  { st with filtered := computeFiltered st.fc st.sortField st.sortOrder st.records }

/-- Concrete records used by the closed witness statements. -/
def wBase : PredictionRecord :=
  { sku_id := "SKU-1", store_id := "S1", current_stock := 10,
    avg_daily_sales := 5, days_to_stockout := .num 2, status := "Critical",
    recommended_reorder_quantity := some 3, category := some "X",
    city := some "C", last_updated := none }

/-- Concrete record with a status outside the three buckets. -/
def wOther : PredictionRecord :=
  { wBase with sku_id := "SKU-2", status := "Discontinued" }

/-- The four conditional filter stages of the filter effect. -/
inductive FilterStage where
  | store
  | category
  | criticalOnly
  | searchStage
deriving DecidableEq

/-- One conditional `data = data.filter(...)` statement of the filter
effect, by stage. -/
def applyStage (k : FilterStage) (fc : Filters) (data : List PredictionRecord) :
    List PredictionRecord :=
  match k with
  | .store =>
      if fc.storeFilter ≠ "ALL" then
        data.filter (fun r => r.store_id == fc.storeFilter) else data
  | .category =>
      if fc.categoryFilter ≠ "ALL" then
        data.filter (fun r => jsStrictEqOpt r.category fc.categoryFilter) else data
  | .criticalOnly =>
      if fc.showCriticalOnly then
        data.filter (fun r => r.status == "Critical") else data
  | .searchStage =>
      if fc.search.trim ≠ "" then
        data.filter (fun r => strIncludes r.sku_id.toLower fc.search.trim.toLower)
      else data

/-- A record carries a present value on the active sort field (always
true for the two string fields and for the required `days_to_stockout`;
`recommended_reorder_quantity` is optional). -/
def hasSortField (f : SortField) (r : PredictionRecord) : Bool :=
  match f with
  | .recommended_reorder_quantity => r.recommended_reorder_quantity.isSome
  | _ => true

/-- Records whose optional reorder quantity is present; on these the
reorder comparator is the comparison of the contained value, hence a
consistent total preorder. -/
def PresentReorder : Type :=
  {r : PredictionRecord // r.recommended_reorder_quantity.isSome = true}

/-- The sort relation restricted to records with a present reorder
quantity. -/
def subLe (o : SortDir) (x y : PresentReorder) : Bool :=
  sortLe .recommended_reorder_quantity o x.1 y.1

/-- Records for the stability counterexample: reorder quantities 5,
absent, 2. -/
def wReorder5 : PredictionRecord :=
  { wBase with
    sku_id := "C"
    status := "Safe"
    recommended_reorder_quantity := some 5 }

/-- Record with an absent reorder quantity. -/
def wReorderNone : PredictionRecord :=
  { wBase with
    sku_id := "U"
    status := "Safe"
    recommended_reorder_quantity := none }

/-- Record with reorder quantity 2. -/
def wReorder2 : PredictionRecord :=
  { wBase with
    sku_id := "B"
    status := "Safe"
    recommended_reorder_quantity := some 2 }

/-- Records with infinite and finite `days_to_stockout`, shared by the
sort witnesses. -/
def wInfA : PredictionRecord :=
  { wBase with
    sku_id := "I1"
    status := "Safe"
    days_to_stockout := .inf }

/-- Second record with infinite days-to-stockout. -/
def wInfB : PredictionRecord :=
  { wBase with
    sku_id := "I2"
    status := "Safe"
    days_to_stockout := .inf }

/-- Record with finite days-to-stockout. -/
def wFin : PredictionRecord :=
  { wBase with
    sku_id := "F1"
    status := "Safe"
    days_to_stockout := .num 5 }

/-- Number of Critical records at one store (claim-side count for C7). -/
def countCriticalAtStore (records : List PredictionRecord) (s : String) : ℕ :=
  (records.filter (fun r => r.status == "Critical" && r.store_id == s)).length

/-- Record exercising the absent-field rendering of the CSV export. -/
def wCsvB : PredictionRecord :=
  { wBase with
    sku_id := "B"
    days_to_stockout := .inf
    status := "Safe"
    recommended_reorder_quantity := none
    category := none
    city := none }

theorem cmpOf_eq_eq {β : Type _} [LinearOrder β] {x y : β} :
    cmpOf x y = .eq ↔ x = y := by
  unfold cmpOf
  split_ifs with h1 h2
  · simp [h1.ne]
  · simp [h2]
  · simp [h2]

theorem cmpOf_isLE {β : Type _} [LinearOrder β] {x y : β} :
    (cmpOf x y).isLE = true ↔ x ≤ y := by
  unfold cmpOf
  split_ifs with h1 h2
  · simp [Ordering.isLE, h1.le]
  · simp [Ordering.isLE, h2]
  · have hyx : y < x := lt_of_le_of_ne (le_of_not_lt h1) (Ne.symm h2)
    simp [Ordering.isLE, not_le.mpr hyx]

theorem cmpOf_swap {β : Type _} [LinearOrder β] (x y : β) :
    (cmpOf x y).swap = cmpOf y x := by
  unfold cmpOf
  rcases lt_trichotomy x y with h | h | h
  · simp [h, not_lt_of_gt h, h.ne', Ordering.swap]
  · simp [h, lt_irrefl, Ordering.swap]
  · simp [h, not_lt_of_gt h, h.ne', Ordering.swap]

theorem jnumCmp_eq_cmpOf (x y : JNum) :
    jnumCmp x y = cmpOf (jnumVal x) (jnumVal y) := by
  cases x <;> cases y <;>
    simp [jnumCmp, jnumVal, cmpOf]

theorem mergeF_eq_merge (le : α → α → Bool) :
    ∀ (fuel : ℕ) (xs ys : List α), xs.length + ys.length ≤ fuel + 1 →
      mergeF le fuel xs ys = List.merge xs ys le := by
  intro fuel
  induction fuel with
  | zero =>
    intro xs ys h
    match xs, ys with
    | [], ys => simp [mergeF]
    | x :: xs, [] => simp [mergeF]
    | x :: xs, y :: ys => simp at h; omega
  | succ f ih =>
    intro xs ys h
    match xs, ys with
    | [], ys => simp [mergeF]
    | x :: xs, [] => simp [mergeF]
    | x :: xs, y :: ys =>
      have h' : xs.length + ys.length + 2 ≤ f + 2 := by
        simpa [Nat.add_assoc, Nat.add_comm, Nat.add_left_comm] using h
      rw [List.cons_merge_cons]
      simp only [mergeF]
      split
      · rw [ih _ _ (by simp; omega)]
      · rw [ih _ _ (by simp; omega)]

theorem jsMerge_eq_merge (le : α → α → Bool) (xs ys : List α) :
    jsMerge le xs ys = List.merge xs ys le :=
  mergeF_eq_merge le (xs.length + ys.length) xs ys (by omega)

theorem mergeSortF_eq_mergeSort (le : α → α → Bool) :
    ∀ (fuel : ℕ) (l : List α), l.length ≤ fuel + 1 →
      mergeSortF le fuel l = l.mergeSort le := by
  intro fuel
  induction fuel with
  | zero =>
    intro l hl
    match l with
    | [] => simp [mergeSortF]
    | [a] => simp [mergeSortF]
    | a :: b :: xs => simp at hl
  | succ f ih =>
    intro l hl
    match l with
    | [] => simp [mergeSortF]
    | [a] => simp [mergeSortF]
    | a :: b :: xs =>
      have hl' : xs.length + 2 ≤ f + 2 := by simpa using hl
      simp only [mergeSortF, List.mergeSort, List.splitInTwo_fst,
        List.splitInTwo_snd, jsMerge_eq_merge]
      rw [ih _ (by simp [List.length_take]; omega),
        ih _ (by simp [List.length_drop]; omega)]

theorem jsSort_eq_mergeSort (le : α → α → Bool) (l : List α) :
    jsSort le l = l.mergeSort le :=
  mergeSortF_eq_mergeSort le l.length l (by omega)

theorem jsSpread_eq (l : List α) : jsSpread l = l := by
  induction l with
  | nil => rfl
  | cons a t ih => simp [jsSpread] at ih ⊢

/-- Transitivity of the stable-sort relation, for a comparator that is
the comparison of a key in a linear order, in either direction. -/
theorem dirOrd_isLE_trans {α β : Type _} [LinearOrder β] (κ : α → β)
    (cmp : α → α → Ordering) (hk : ∀ a b, cmp a b = cmpOf (κ a) (κ b))
    (o : SortDir) (a b c : α)
    (h1 : (dirOrd o (cmp a b)).isLE = true)
    (h2 : (dirOrd o (cmp b c)).isLE = true) :
    (dirOrd o (cmp a c)).isLE = true := by
  cases o with
  | asc =>
    simp only [dirOrd, hk, cmpOf_isLE] at h1 h2 ⊢
    exact le_trans h1 h2
  | desc =>
    simp only [dirOrd, hk, cmpOf_swap, cmpOf_isLE] at h1 h2 ⊢
    exact le_trans h2 h1

/-- Totality of the stable-sort relation for a linear-order key. -/
theorem dirOrd_isLE_total {α β : Type _} [LinearOrder β] (κ : α → β)
    (cmp : α → α → Ordering) (hk : ∀ a b, cmp a b = cmpOf (κ a) (κ b))
    (o : SortDir) (a b : α) :
    ((dirOrd o (cmp a b)).isLE || (dirOrd o (cmp b a)).isLE) = true := by
  cases o with
  | asc =>
    simp only [dirOrd, hk, cmpOf_isLE, Bool.or_eq_true]
    exact le_total (κ a) (κ b)
  | desc =>
    simp only [dirOrd, hk, cmpOf_swap, cmpOf_isLE, Bool.or_eq_true]
    exact le_total (κ b) (κ a)

/-- For the three sort fields that are always present (`sku_id`,
`store_id`, `days_to_stockout`) the comparator is the comparison of a
linear-order key, so `sortLe` is transitive and total. -/
theorem sortLe_trans_total (f : SortField) (o : SortDir)
    (hf : f ≠ SortField.recommended_reorder_quantity) :
    (∀ a b c, sortLe f o a b → sortLe f o b c → sortLe f o a c) ∧
    (∀ a b, (sortLe f o a b || sortLe f o b a) = true) := by
  cases f with
  | sku_id =>
    exact ⟨fun a b c =>
        dirOrd_isLE_trans (fun r : PredictionRecord => r.sku_id) (baseCmp .sku_id) (fun _ _ => rfl) o a b c,
      fun a b =>
        dirOrd_isLE_total (fun r : PredictionRecord => r.sku_id) (baseCmp .sku_id) (fun _ _ => rfl) o a b⟩
  | store_id =>
    exact ⟨fun a b c =>
        dirOrd_isLE_trans (fun r : PredictionRecord => r.store_id) (baseCmp .store_id) (fun _ _ => rfl) o a b c,
      fun a b =>
        dirOrd_isLE_total (fun r : PredictionRecord => r.store_id) (baseCmp .store_id) (fun _ _ => rfl) o a b⟩
  | days_to_stockout =>
    exact ⟨fun a b c =>
        dirOrd_isLE_trans (fun r : PredictionRecord => jnumVal r.days_to_stockout)
          (baseCmp .days_to_stockout) (fun _ _ => jnumCmp_eq_cmpOf _ _) o a b c,
      fun a b =>
        dirOrd_isLE_total (fun r : PredictionRecord => jnumVal r.days_to_stockout)
          (baseCmp .days_to_stockout) (fun _ _ => jnumCmp_eq_cmpOf _ _) o a b⟩
  | recommended_reorder_quantity => exact absurd rfl hf

/-- C1: For every snapshot and every choice of filter criteria, the
aggregates `statusCounts` (`countCritical`, `countWarning`,
`countSafe`), `criticalByStore`, and `topCritical` are computed over the
full records list and are identical for all filter choices; only the
filtered ordered view depends on the filter criteria. -/
theorem aggregates_filter_independent (records : List PredictionRecord)
    (fc1 fc2 : Filters) (f1 f2 : SortField) (o1 o2 : SortDir) :
    (deriveDashboard records fc1 f1 o1).countCritical
      = (deriveDashboard records fc2 f2 o2).countCritical
  ∧ (deriveDashboard records fc1 f1 o1).countWarning
      = (deriveDashboard records fc2 f2 o2).countWarning
  ∧ (deriveDashboard records fc1 f1 o1).countSafe
      = (deriveDashboard records fc2 f2 o2).countSafe
  ∧ (deriveDashboard records fc1 f1 o1).criticalByStore
      = (deriveDashboard records fc2 f2 o2).criticalByStore
  ∧ (deriveDashboard records fc1 f1 o1).topCritical
      = (deriveDashboard records fc2 f2 o2).topCritical :=
  ⟨rfl, rfl, rfl, rfl, rfl⟩

/-- C9: The filter-and-sort pipeline never mutates its input: the
effect recomputes `filtered` from a spread copy of `records`, and the
`records` component of the state (length, order, and elements) is
unchanged; the spread copy itself reproduces the list element by
element. -/
theorem filter_effect_frame (st : ViewState) :
    (applyFilterEffect st).records = st.records
  ∧ (applyFilterEffect st).records.length = st.records.length
  ∧ jsSpread st.records = st.records :=
  ⟨rfl, rfl, jsSpread_eq st.records⟩

/-- C6: Exporting an empty view produces no document: it returns the
distinct "No data to export" notice, and every non-empty view produces
a file (the guard is a total function, not a crash). -/
theorem empty_export_notice :
    downloadCSV [] = ExportResult.notice "No data to export"
  ∧ ∀ data : List PredictionRecord, data ≠ [] →
      ∃ doc, downloadCSV data = ExportResult.file doc := by
  refine ⟨rfl, fun data h => ⟨csvString data, ?_⟩⟩
  unfold downloadCSV
  rw [if_neg fun hc => h (List.length_eq_zero.mp hc)]

/-- Witness for C6 at a concrete non-empty view. -/
theorem empty_export_notice_witness :
    ([wBase] : List PredictionRecord) ≠ []
  ∧ ∃ doc, downloadCSV [wBase] = ExportResult.file doc :=
  ⟨by decide, empty_export_notice.2 [wBase] (by decide)⟩

/-- C4: Starting request R2 while R1 is outstanding invalidates R1's
controller generation; R1's later settlement (in any interleaving, and
with any outcome) is a no-op — it neither overwrites the state set by R2
nor records an error, because the aborted request rejects with
`AbortError`, which the catch block ignores. -/
theorem stale_fetch_discarded (s0 : FetchState) (out1 out2 : FetchOutcome) :
    (fetchStep (fetchStep s0 .startRequest) .startRequest).current ≠ some s0.nextGen
  ∧ fetchStep (fetchStep (fetchStep s0 .startRequest) .startRequest)
        (.settle s0.nextGen out1)
      = fetchStep (fetchStep s0 .startRequest) .startRequest
  ∧ fetchStep
        (fetchStep (fetchStep (fetchStep s0 .startRequest) .startRequest)
          (.settle (fetchStep s0 .startRequest).nextGen out2))
        (.settle s0.nextGen out1)
      = fetchStep (fetchStep (fetchStep s0 .startRequest) .startRequest)
          (.settle (fetchStep s0 .startRequest).nextGen out2) := by
  refine ⟨by simp [fetchStep], by simp [fetchStep], ?_⟩
  cases out2 <;> simp [fetchStep]

/-- Two successive filters commute (each is a pure predicate). -/
theorem filter_filter_comm (p q : α → Bool) (l : List α) :
    (l.filter q).filter p = (l.filter p).filter q := by
  induction l with
  | nil => rfl
  | cons a t ih =>
    by_cases hp : p a <;> by_cases hq : q a <;>
      simp [List.filter_cons, hp, hq, ih]

/-- C8: The four filter predicates (store equality, category equality,
critical-only, case-insensitive substring search on `sku_id`) are
AND-combined pure predicates: any two stages applied in either order
yield the same resulting records, and the pipeline's filtering portion
is exactly the four stages composed in source order. -/
theorem filter_stages_commute :
    (∀ (k1 k2 : FilterStage) (fc : Filters) (l : List PredictionRecord),
        applyStage k1 fc (applyStage k2 fc l) = applyStage k2 fc (applyStage k1 fc l))
  ∧ (∀ (fc : Filters) (l : List PredictionRecord),
        applyFilters fc l =
          applyStage .searchStage fc (applyStage .criticalOnly fc
            (applyStage .category fc (applyStage .store fc l)))) := by
  constructor
  · intro k1 k2 fc l
    cases k1 <;> cases k2 <;> simp only [applyStage] <;> split_ifs <;>
      first
        | rfl
        | apply filter_filter_comm
  · intro fc l
    simp only [applyFilters, applyStage, jsSpread_eq]

/-- Sum lemma behind C10: the three status buckets partition the records
carrying one of the three statuses. -/
theorem status_sum_eq (records : List PredictionRecord) :
    countCritical records + countWarning records + countSafe records =
      (records.filter (fun r =>
        r.status == "Critical" || r.status == "Warning" || r.status == "Safe")).length := by
  induction records with
  | nil => rfl
  | cons r t ih =>
    simp only [countCritical, countWarning, countSafe,
      ← List.countP_eq_length_filter] at ih ⊢
    cases hc : (r.status == "Critical") <;>
      cases hw : (r.status == "Warning") <;>
        cases hs : (r.status == "Safe") <;>
          simp_all [List.countP_cons, beq_iff_eq] <;> omega

/-- C10: `countCritical`, `countWarning`, `countSafe` count exactly the
records whose status string strictly equals the respective literal; a
record with any other status is counted in none of the buckets, so the
three counts sum to the number of records with one of those three
statuses, which may be less than the total record count. -/
theorem status_counts_strict (records : List PredictionRecord) :
    (countCritical records + countWarning records + countSafe records
      = (records.filter (fun r =>
          r.status == "Critical" || r.status == "Warning" || r.status == "Safe")).length)
  ∧ countCritical records + countWarning records + countSafe records ≤ records.length
  ∧ (∀ r : PredictionRecord, r.status ≠ "Critical" →
      countCritical (r :: records) = countCritical records)
  ∧ (∀ r : PredictionRecord, r.status ≠ "Warning" →
      countWarning (r :: records) = countWarning records)
  ∧ (∀ r : PredictionRecord, r.status ≠ "Safe" →
      countSafe (r :: records) = countSafe records) := by
  refine ⟨status_sum_eq records, ?_, ?_, ?_, ?_⟩
  · rw [status_sum_eq records]
    exact List.length_filter_le _ _
  · intro r h
    simp [countCritical, List.filter_cons, beq_iff_eq, h]
  · intro r h
    simp [countWarning, List.filter_cons, beq_iff_eq, h]
  · intro r h
    simp [countSafe, List.filter_cons, beq_iff_eq, h]

/-- Witness for C10: a record with a status outside the three buckets
changes none of the counters. -/
theorem status_counts_strict_witness :
    wOther.status ≠ "Critical" ∧ countCritical [wOther] = countCritical [] :=
  ⟨by decide, (status_counts_strict []).2.2.1 wOther (by decide)⟩

/-- C2 counterexample: sorting by `recommended_reorder_quantity`
ascending, the records `wReorderNone` (absent value) and `wReorder2`
compare equal (`undefined - 2` is NaN, treated as 0), appear in this
order in the input, yet the sorted output reverses them: the absent
value also compares equal to `wReorder5`, which makes the comparator
inconsistent, and the stable merge places `wReorder2` before both.
The same inversion happens in V8's binary insertion sort, and
ECMAScript leaves the order implementation-defined for inconsistent
comparators, so the stability claim fails as stated. -/
theorem sort_stability_counterexample :
    keyCmp .recommended_reorder_quantity .asc wReorderNone wReorder2 = .eq
  ∧ List.Sublist [wReorderNone, wReorder2] [wReorder5, wReorderNone, wReorder2]
  ∧ ¬ List.Sublist [wReorderNone, wReorder2]
      (jsSortBy .recommended_reorder_quantity .asc
        [wReorder5, wReorderNone, wReorder2]) :=
  ⟨by decide, by decide, by decide⟩

/-- C2 amended: the sort applied to the filtered view is stable on every
filtered sequence whose records all carry a present value on the active
sort field (automatic for `sku_id`, `store_id`, `days_to_stockout`; a
real restriction only for the optional `recommended_reorder_quantity`):
two records comparing equal on the active field keep their relative
order from the pre-sort sequence, for every field and both
directions. -/
theorem sort_stable_on_present_fields (f : SortField) (o : SortDir)
    (l : List PredictionRecord) (a b : PredictionRecord)
    (hall : ∀ r ∈ l, hasSortField f r = true)
    (heq : keyCmp f o a b = .eq)
    (hab : List.Sublist [a, b] l) :
    List.Sublist [a, b] (jsSortBy f o l) := by
  rw [jsSortBy, jsSort_eq_mergeSort]
  by_cases hf : f = SortField.recommended_reorder_quantity
  case neg =>
    obtain ⟨htrans, htotal⟩ := sortLe_trans_total f o hf
    refine List.pair_sublist_mergeSort htrans htotal ?_ hab
    show (keyCmp f o a b).isLE = true
    rw [heq]
    rfl
  case pos =>
    subst hf
    have hall' : ∀ r ∈ l, r.recommended_reorder_quantity.isSome = true := hall
    have hk : ∀ x y : PresentReorder,
        baseCmp .recommended_reorder_quantity x.1 y.1 =
          cmpOf (x.1.recommended_reorder_quantity.get x.2)
            (y.1.recommended_reorder_quantity.get y.2) := by
      intro x y
      obtain ⟨vx, hx⟩ := Option.isSome_iff_exists.mp x.2
      obtain ⟨vy, hy⟩ := Option.isSome_iff_exists.mp y.2
      simp [baseCmp, optNatCmp, hx, hy]
    have htrans : ∀ x y z : PresentReorder, subLe o x y → subLe o y z → subLe o x z :=
      fun x y z => dirOrd_isLE_trans
        (fun s : PresentReorder => s.1.recommended_reorder_quantity.get s.2)
        (fun u v => baseCmp .recommended_reorder_quantity u.1 v.1) hk o x y z
    have htotal : ∀ x y : PresentReorder, (subLe o x y || subLe o y x) = true :=
      fun x y => dirOrd_isLE_total
        (fun s : PresentReorder => s.1.recommended_reorder_quantity.get s.2)
        (fun u v => baseCmp .recommended_reorder_quantity u.1 v.1) hk o x y
    have hmap : (l.attach.map
        (fun x => (⟨x.1, hall' x.1 x.2⟩ : PresentReorder))).map Subtype.val = l := by
      rw [List.map_map]
      exact List.attach_map_subtype_val l
    rw [← hmap] at hab
    obtain ⟨pair, hpairsub, hpairmap⟩ := List.sublist_map_iff.mp hab
    rcases pair with _ | ⟨x, _ | ⟨y, _ | ⟨z, rest⟩⟩⟩
    · simp at hpairmap
    · simp at hpairmap
    · have hxy : a = x.1 ∧ b = y.1 := by simpa using hpairmap
      have hle : subLe o x y := by
        show (keyCmp .recommended_reorder_quantity o x.1 y.1).isLE = true
        rw [← hxy.1, ← hxy.2, heq]
        rfl
      have hsorted := List.pair_sublist_mergeSort htrans htotal hle hpairsub
      have hmapped := List.Sublist.map Subtype.val hsorted
      have hcomm : ((l.attach.map
            (fun x => (⟨x.1, hall' x.1 x.2⟩ : PresentReorder))).mergeSort
              (subLe o)).map Subtype.val
          = ((l.attach.map
              (fun x => (⟨x.1, hall' x.1 x.2⟩ : PresentReorder))).map
                Subtype.val).mergeSort
              (sortLe .recommended_reorder_quantity o) :=
        List.map_mergeSort (fun u _ v _ => rfl)
      rw [hcomm, hmap] at hmapped
      rw [hxy.1, hxy.2]
      exact hmapped
    · simp at hpairmap

/-- Witness for the amended C2: two records with equal (infinite)
`days_to_stockout` keep their order when sorted on that field. -/
theorem sort_stable_witness :
    (∀ r ∈ [wInfA, wInfB], hasSortField .days_to_stockout r = true)
  ∧ keyCmp .days_to_stockout .asc wInfA wInfB = .eq
  ∧ List.Sublist [wInfA, wInfB] (jsSortBy .days_to_stockout .asc [wInfA, wInfB]) :=
  ⟨by decide, by decide,
    sort_stable_on_present_fields .days_to_stockout .asc [wInfA, wInfB]
      wInfA wInfB (by decide) (by decide) (by decide)⟩

/-- C3: Sorting on `days_to_stockout`, a record whose value is the
positive-infinity sentinel is placed after every record with a finite
value when ascending (the infinite records form a suffix), and before
every record with a finite value when descending (they form a
prefix). -/
theorem infinity_sort_position (o : SortDir) (l : List PredictionRecord)
    (i j : ℕ) (hi : i < (jsSortBy .days_to_stockout o l).length)
    (hj : j < (jsSortBy .days_to_stockout o l).length) (hij : i < j) :
    (o = .asc →
      ((jsSortBy .days_to_stockout o l).get ⟨i, hi⟩).days_to_stockout = .inf →
      ((jsSortBy .days_to_stockout o l).get ⟨j, hj⟩).days_to_stockout = .inf)
  ∧ (o = .desc →
      ((jsSortBy .days_to_stockout o l).get ⟨j, hj⟩).days_to_stockout = .inf →
      ((jsSortBy .days_to_stockout o l).get ⟨i, hi⟩).days_to_stockout = .inf) := by
  have he : jsSortBy .days_to_stockout o l
      = List.mergeSort l (sortLe .days_to_stockout o) := by
    rw [jsSortBy, jsSort_eq_mergeSort]
  obtain ⟨htrans, htotal⟩ :=
    sortLe_trans_total .days_to_stockout o (by simp)
  have hp := List.sorted_mergeSort htrans htotal l
  rw [← he] at hp
  have hg : sortLe .days_to_stockout o
      ((jsSortBy .days_to_stockout o l).get ⟨i, hi⟩)
      ((jsSortBy .days_to_stockout o l).get ⟨j, hj⟩) = true := by
    have := List.pairwise_iff_getElem.mp hp i j hi hj hij
    simpa [List.get_eq_getElem] using this
  constructor
  · intro ho hinf
    subst ho
    cases hd : ((jsSortBy .days_to_stockout .asc l).get ⟨j, hj⟩).days_to_stockout with
    | inf => rfl
    | num q =>
      simp only [List.get_eq_getElem] at hinf hd
      simp [sortLe, keyCmp, dirOrd, baseCmp, hinf, hd, jnumCmp, Ordering.isLE] at hg
  · intro ho hinf
    subst ho
    cases hd : ((jsSortBy .days_to_stockout .desc l).get ⟨i, hi⟩).days_to_stockout with
    | inf => rfl
    | num q =>
      simp only [List.get_eq_getElem] at hinf hd
      simp [sortLe, keyCmp, dirOrd, baseCmp, hinf, hd, jnumCmp, Ordering.isLE,
        Ordering.swap] at hg

/-- Witness for C3: in the ascending sort of an infinite, finite,
infinite sequence, the record after an infinite one is infinite. -/
theorem infinity_sort_position_witness :
    ((jsSortBy .days_to_stockout .asc [wInfA, wFin, wInfB]).get
      ⟨2, by decide⟩).days_to_stockout = .inf :=
  (infinity_sort_position .asc [wInfA, wFin, wInfB] 1 2 (by decide) (by decide)
    (by decide)).1 rfl (by decide)

/-- Looking a key up after a bump: the bumped key gains one (starting
from 0 when absent), every other key is unchanged. -/
theorem bumpStore_lookup (acc : List (String × ℕ)) (k s : String) :
    (bumpStore acc k).lookup s =
      if s = k then some (((acc.lookup k).getD 0) + 1) else acc.lookup s := by
  induction acc with
  | nil =>
    by_cases h : s = k
    · have hb : (s == k) = true := by simp [beq_iff_eq, h]
      simp [bumpStore, List.lookup, hb, h]
    · have hb : (s == k) = false := by simp [beq_iff_eq, h]
      simp [bumpStore, List.lookup, hb, h]
  | cons e rest ih =>
    obtain ⟨k', v⟩ := e
    by_cases hek : k' = k
    · subst hek
      by_cases hsk : s = k'
      · have hb : (s == k') = true := by simp [beq_iff_eq, hsk]
        simp [bumpStore, List.lookup, hb, hsk]
      · have hb : (s == k') = false := by simp [beq_iff_eq, hsk]
        simp [bumpStore, List.lookup, hb, hsk]
    · by_cases hsk : s = k'
      · have hski : s ≠ k := by rw [hsk]; exact hek
        have hb : (s == k') = true := by simp [beq_iff_eq, hsk]
        have hbk : (k == k') = false := by
          simp only [beq_eq_false_iff_ne]
          exact fun h => hek h.symm
        simp [bumpStore, List.lookup, hek, hb, hbk, hski]
      · have hb : (s == k') = false := by simp [beq_iff_eq, hsk]
        have hbk : (k == k') = false := by
          simp only [beq_eq_false_iff_ne]
          exact fun h => hek h.symm
        simp [bumpStore, List.lookup, hek, hb, hbk, ih]

/-- A bump increases the total of the counts by exactly one. -/
theorem bumpStore_sum (acc : List (String × ℕ)) (k : String) :
    ((bumpStore acc k).map Prod.snd).sum = (acc.map Prod.snd).sum + 1 := by
  induction acc with
  | nil => simp [bumpStore]
  | cons e rest ih =>
    by_cases hek : e.1 = k <;> simp [bumpStore, hek, ih] <;> omega

/-- Lookup characterization of the `criticalByStore` fold, generalized
over the accumulator. -/
theorem criticalByStore_foldl_lookup (records : List PredictionRecord) :
    ∀ (acc : List (String × ℕ)) (s : String),
      (records.foldl (fun acc r =>
          if r.status == "Critical" then bumpStore acc r.store_id else acc)
        acc).lookup s
        = if countCriticalAtStore records s = 0 then acc.lookup s
          else some ((acc.lookup s).getD 0 + countCriticalAtStore records s) := by
  induction records with
  | nil =>
    intro acc s
    simp [countCriticalAtStore]
  | cons r t ih =>
    intro acc s
    simp only [List.foldl_cons]
    by_cases hc : (r.status == "Critical") = true
    · rw [if_pos hc]
      by_cases hs : r.store_id = s
      · subst hs
        rw [ih (bumpStore acc r.store_id) r.store_id]
        have hcount : countCriticalAtStore (r :: t) r.store_id
            = countCriticalAtStore t r.store_id + 1 := by
          simp [countCriticalAtStore, List.filter_cons, hc]
        rw [hcount, bumpStore_lookup]
        by_cases h0 : countCriticalAtStore t r.store_id = 0
        · simp [h0]
        · simp [h0]
          omega
      · rw [ih (bumpStore acc r.store_id) s]
        have hcount : countCriticalAtStore (r :: t) s = countCriticalAtStore t s := by
          simp [countCriticalAtStore, List.filter_cons, hc, beq_iff_eq, hs]
        have hns : ¬ (s = r.store_id) := fun h => hs h.symm
        rw [hcount, bumpStore_lookup]
        simp [hns]
    · rw [if_neg hc]
      have hcount : countCriticalAtStore (r :: t) s = countCriticalAtStore t s := by
        simp [countCriticalAtStore, List.filter_cons, hc]
      rw [hcount]
      exact ih acc s

/-- Sum characterization of the `criticalByStore` fold: every Critical
record contributes exactly one to the total of the per-store counts. -/
theorem criticalByStore_foldl_sum (records : List PredictionRecord) :
    ∀ acc : List (String × ℕ),
      (((records.foldl (fun acc r =>
          if r.status == "Critical" then bumpStore acc r.store_id else acc)
        acc).map Prod.snd).sum)
        = (acc.map Prod.snd).sum + countCritical records := by
  induction records with
  | nil =>
    intro acc
    simp [countCritical]
  | cons r t ih =>
    intro acc
    simp only [List.foldl_cons]
    by_cases hc : (r.status == "Critical") = true
    · rw [if_pos hc, ih (bumpStore acc r.store_id), bumpStore_sum]
      have : countCritical (r :: t) = countCritical t + 1 := by
        simp [countCritical, List.filter_cons, hc]
      rw [this]
      omega
    · rw [if_neg hc, ih acc]
      have : countCritical (r :: t) = countCritical t := by
        simp [countCritical, List.filter_cons, hc]
      rw [this]

/-- C7: `criticalByStore` maps each `store_id` to the number of Critical
records at that store; a store appears in the mapping exactly when it
has at least one Critical record (lookup is `none` otherwise), every
Critical record is counted exactly once (the values sum to
`countCritical`), and the displayed chart slices the first 6 entries of
the mapping without altering it. -/
theorem criticalByStore_counts (records : List PredictionRecord) :
    (∀ s : String, (criticalByStore records).lookup s =
        if countCriticalAtStore records s = 0 then none
        else some (countCriticalAtStore records s))
  ∧ ((criticalByStore records).map Prod.snd).sum = countCritical records
  ∧ barChartEntries (criticalByStore records) = (criticalByStore records).take 6 := by
  refine ⟨?_, ?_, rfl⟩
  · intro s
    have h := criticalByStore_foldl_lookup records [] s
    simpa [criticalByStore] using h
  · have h := criticalByStore_foldl_sum records []
    simpa [criticalByStore] using h

/-- C5: For every non-empty view, the export produces a document whose
first row is exactly the 9 quoted headers, followed by one row per
record in view order with every field value wrapped in double quotes;
`days_to_stockout` renders as the infinity glyph for the sentinel and to
one decimal place otherwise, `avg_daily_sales` renders to two decimal
places, absent `category`/`city` render as `-`, and an absent
`recommended_reorder_quantity` renders as `0`. -/
theorem csv_export_format (data : List PredictionRecord) (h : data ≠ []) :
    downloadCSV data = ExportResult.file (String.intercalate "\n"
        (specHeaderRow :: data.map (fun r =>
          String.intercalate "," ((csvCells r).map quoteCell))))
  ∧ (∀ r : PredictionRecord, (csvCells r).length = 9)
  ∧ (∀ r : PredictionRecord, r.days_to_stockout = .inf →
      (csvCells r).get? 4 = some "∞")
  ∧ (∀ (r : PredictionRecord) (q : ℚ), r.days_to_stockout = .num q →
      (csvCells r).get? 4 = some (jsToFixed 1 q))
  ∧ (∀ r : PredictionRecord,
      (csvCells r).get? 3 = some (jsToFixed 2 r.avg_daily_sales))
  ∧ (∀ r : PredictionRecord, r.recommended_reorder_quantity = none →
      (csvCells r).get? 6 = some "0")
  ∧ (∀ r : PredictionRecord, r.category = none → (csvCells r).get? 7 = some "-")
  ∧ (∀ r : PredictionRecord, r.city = none → (csvCells r).get? 8 = some "-") := by
  refine ⟨?_, fun r => rfl, fun r hr => by simp [csvCells, hr],
    fun r q hr => by simp [csvCells, hr], fun r => rfl,
    fun r hr => by simp [csvCells, hr], fun r hr => by simp [csvCells, hr],
    fun r hr => by simp [csvCells, hr]⟩
  unfold downloadCSV
  rw [if_neg (fun hc => h (List.length_eq_zero.mp hc))]
  simp only [csvString, specHeaderRow, quoteCell, csvHeaders, List.map_cons,
    List.map_map]
  rfl

set_option maxRecDepth 8000 in
/-- Witness for C5 on a two-record view (one finite, one infinite
`days_to_stockout`; the second record has absent reorder quantity,
category, and city), including the fully evaluated document. -/
theorem csv_export_format_witness :
    ([wBase, wCsvB] : List PredictionRecord) ≠ []
  ∧ downloadCSV [wBase, wCsvB] = ExportResult.file (String.intercalate "\n"
      (specHeaderRow :: [wBase, wCsvB].map (fun r =>
        String.intercalate "," ((csvCells r).map quoteCell))))
  ∧ downloadCSV [wBase, wCsvB] = ExportResult.file
      "\"SKU\",\"Store\",\"Current Stock\",\"Avg Daily Sales\",\"Days to Stockout\",\"Status\",\"Reorder Qty\",\"Category\",\"City\"\n\"SKU-1\",\"S1\",\"10\",\"5.00\",\"2.0\",\"Critical\",\"3\",\"X\",\"C\"\n\"B\",\"S1\",\"10\",\"5.00\",\"∞\",\"Safe\",\"0\",\"-\",\"-\"" :=
  ⟨by decide, (csv_export_format [wBase, wCsvB] (by decide)).1, by decide⟩
